import Mathlib

/-!
Verification of the realtime live-session core of the Aivio2 app
(src/index.tsx and the app variant in src/unnamed/part_000).

The embedding models:
* the transport text coding used by the live session
  (the source's `encode`/`decode` helpers, i.e. the browser's
  `btoa`/`atob` forgiving-base64 pair), over byte lists;
* the PCM codec (`createBlob`, `decodeAudioData`), with 32-bit float
  samples modelled as rationals and the JavaScript `Int16Array`
  element conversion (truncate toward zero, wrap modulo 2^16)
  made explicit;
* the playback scheduler (the `nextStartTime` logic of the inline
  audio branch of `onmessage`);
* the LiveView session state machine (`cleanupAudio`,
  `stopLiveSession`, `onerror`, `onmessage`).  React state setters
  are modelled as immediate record updates; resource operations that
  act on the outside world (track `stop`, context `close`,
  processor `disconnect`, timer clearing, connection close) are
  modelled as an effect trace emitted by each step.
-/

/-! ### Transport text coding (source `encode` / `decode`, lines 384-420 of src/index.tsx)

`encode` builds a binary string from the bytes and applies `btoa`;
`decode` applies `atob` and reads the character codes back.  Both are
modelled on lists of character codes / bytes.  `atob` implements the
WHATWG forgiving-base64 decode: ASCII whitespace is stripped, padding
is accepted only as one or two trailing `=` completing a final block
of four, a leftover tail of two or three alphabet characters is
accepted unpadded, and anything else is an error (`none`). -/

/-- Is `c` one of the 64 base64 alphabet character codes? -/
def isB64 (c : Nat) : Bool :=
  (65 ≤ c && c ≤ 90) || (97 ≤ c && c ≤ 122) || (48 ≤ c && c ≤ 57) || c == 43 || c == 47

/-- Sextet value of a base64 alphabet character code. -/
def b64Val (c : Nat) : Nat :=
  if 65 ≤ c ∧ c ≤ 90 then c - 65
  else if 97 ≤ c ∧ c ≤ 122 then c - 71
  else if 48 ≤ c ∧ c ≤ 57 then c + 4
  else if c = 43 then 62
  else 63

/-- Base64 alphabet character code of a sextet. -/
def b64Char (s : Nat) : Nat :=
  if s < 26 then s + 65
  else if s < 52 then s + 71
  else if s < 62 then s - 4
  else if s = 62 then 43
  else 47

/-- ASCII whitespace stripped by forgiving-base64 decode. -/
def isWsChar (c : Nat) : Bool :=
  c == 9 || c == 10 || c == 12 || c == 13 || c == 32

/-- `btoa`: encode bytes three at a time, padding the final block with `=`
(character code 61). -/
def btoaChunks : List Nat → List Nat
  | [] => []
  | [a] => [b64Char (a / 4), b64Char (a % 4 * 16), 61, 61]
  | [a, b] => [b64Char (a / 4), b64Char (a % 4 * 16 + b / 16), b64Char (b % 16 * 4), 61]
  | a :: b :: c :: rest =>
      b64Char (a / 4) :: b64Char (a % 4 * 16 + b / 16) ::
      b64Char (b % 16 * 4 + c / 64) :: b64Char (c % 64) :: btoaChunks rest

/-- The source `encode` helper: bytes to transport text. -/
def encodeModel (bytes : List Nat) : List Nat := btoaChunks bytes

/-- Forgiving-base64 main loop, after whitespace stripping: blocks of
four characters, padding allowed only in a final block, and a trailing
run of two or three alphabet characters allowed unpadded. -/
def atobRun : List Nat → Option (List Nat)
  | [] => some []
  | [_] => none
  | [c0, c1] =>
      if isB64 c0 && isB64 c1 then some [b64Val c0 * 4 + b64Val c1 / 16] else none
  | [c0, c1, c2] =>
      if isB64 c0 && isB64 c1 && isB64 c2 then
        some [b64Val c0 * 4 + b64Val c1 / 16, b64Val c1 % 16 * 16 + b64Val c2 / 4]
      else none
  | c0 :: c1 :: c2 :: c3 :: rest =>
      if isB64 c0 && isB64 c1 then
        if c2 == 61 then
          if c3 == 61 && rest.isEmpty then some [b64Val c0 * 4 + b64Val c1 / 16] else none
        else if isB64 c2 then
          if c3 == 61 then
            if rest.isEmpty then
              some [b64Val c0 * 4 + b64Val c1 / 16, b64Val c1 % 16 * 16 + b64Val c2 / 4]
            else none
          else if isB64 c3 then
            (atobRun rest).map (fun bs =>
              (b64Val c0 * 4 + b64Val c1 / 16) ::
              (b64Val c1 % 16 * 16 + b64Val c2 / 4) ::
              (b64Val c2 % 4 * 64 + b64Val c3) :: bs)
          else none
        else none
      else none

/-- The source `decode` helper: transport text to bytes; `none` models
the `InvalidCharacterError` thrown by `atob` on malformed input. -/
def decodeModel (text : List Nat) : Option (List Nat) :=
  atobRun (text.filter (fun c => !isWsChar c))

example : encodeModel [77, 97, 110] = [84, 87, 70, 117] := by decide
example : decodeModel (encodeModel [77, 97]) = some [77, 97] := by decide
example : decodeModel [33] = none := by decide

/-! ### PCM codec (`createBlob`, lines 422-432; `decodeAudioData`, lines 394-411)

Float samples are modelled as rationals.  `createBlob` writes
`data[i] * 32768` into an `Int16Array`; the JavaScript conversion
truncates toward zero and wraps modulo 2^16 (no clamping).  The bytes
of the `Int16Array` buffer are read out little-endian.
`decodeAudioData` views the byte buffer as an `Int16Array`
(little-endian pairs), de-interleaves channels and divides by 32768. -/

/-- JavaScript number-to-integer conversion used by `Int16Array`
stores: truncation toward zero. -/
def truncRat (q : ℚ) : ℤ := if 0 ≤ q then ⌊q⌋ else ⌈q⌉

/-- The unsigned 16-bit cell written by `int16[i] = data[i] * 32768`:
truncate toward zero, then reduce modulo 2^16 (two's complement bits). -/
def sampleToU16 (x : ℚ) : Nat := (truncRat (x * 32768) % 65536).toNat

/-- Signed value of a 16-bit cell, as read back through `Int16Array`. -/
def toInt16 (u : Nat) : ℤ :=
  if u % 65536 < 32768 then ((u % 65536 : Nat) : ℤ) else ((u % 65536 : Nat) : ℤ) - 65536

/-- Byte stream of `createBlob` (the `Uint8Array` view over the
`Int16Array` buffer, little-endian). -/
def createBlobBytes : List ℚ → List Nat
  | [] => []
  | x :: rest => sampleToU16 x % 256 :: sampleToU16 x / 256 :: createBlobBytes rest

/-- `new Int16Array(data.buffer)`: little-endian 16-bit signed reads.
(A trailing odd byte would make the constructor throw in JavaScript;
it cannot arise from `createBlob` output and is dropped here.) -/
def int16Pairs : List Nat → List ℤ
  | b0 :: b1 :: rest => toInt16 (b0 + 256 * b1) :: int16Pairs rest
  | _ => []

/-- One channel of `decodeAudioData`:
`frameCount = dataInt16.length / numChannels` and
`channelData[i] = dataInt16[i * numChannels + channel] / 32768`. -/
def decodeAudioDataCh (data : List Nat) (numChannels channel : Nat) : List ℚ :=
  let d16 := int16Pairs data
  let frameCount := d16.length / numChannels
  (List.range frameCount).map (fun i => ((d16.getD (i * numChannels + channel) 0 : ℤ) : ℚ) / 32768)

/-- Encode to PCM-16 bytes with `createBlob`, decode back with
`decodeAudioData` at one channel. -/
def pcmRoundTrip (xs : List ℚ) : List ℚ := decodeAudioDataCh (createBlobBytes xs) 1 0

/-- Per-sample approximate equality within 1/32768, as in the
round-trip law. -/
def approxEq (xs ys : List ℚ) : Prop :=
  xs.length = ys.length ∧ ∀ p ∈ xs.zip ys, |p.1 - p.2| ≤ 1 / 32768

example : sampleToU16 (1/2) = 16384 := by
  norm_num [sampleToU16, truncRat]; decide
example : sampleToU16 1 = 32768 := by
  norm_num [sampleToU16, truncRat]; decide
example : toInt16 32768 = -32768 := by norm_num [toInt16]

/-! ### Playback scheduler (inline audio branch of `onmessage`, lines 980-998)

Per decoded buffer the source runs
`nextStartTime = max(nextStartTime, ctx.currentTime)`,
starts the source at `nextStartTime`, then adds the buffer duration.
An event is a pair `(c, d)` of the output clock's `currentTime` when
the payload is handled and the decoded buffer's duration. -/

/-- Start times produced by the scheduler from `nextStartTime = next`
over a sequence of (clock time, duration) events. -/
def schedStarts (next : ℚ) : List (ℚ × ℚ) → List ℚ
  | [] => []
  | e :: rest => max next e.1 :: schedStarts (max next e.1 + e.2) rest

/-- No-overlap separation: each start is at least the previous start
plus the previous duration. -/
def sepOk : List ℚ → List ℚ → Bool
  | s1 :: s2 :: srest, d1 :: drest =>
      decide (s1 + d1 ≤ s2) && sepOk (s2 :: srest) drest
  | _, _ => true

/-! ### Live session state machine (`LiveView`, lines 864-1036 of
src/index.tsx; frame-timer variant at lines 1871-2086 of
src/unnamed/part_000)

React `useState`/`useRef` cells are the fields of `LiveState`;
actions on external resources are recorded as an effect trace.
The frame-timer variant strictly extends the audio-only variant
(which always has `frameTimer = false`), so one model covers both. -/

/-- The four UI connection states of the live session. -/
inductive ConnState
  | disconnected
  | connecting
  | connected
  | error
deriving DecidableEq, Repr

/-- Transcript entry authors (`'You' | 'Gemini'`). -/
inductive Author
  | you
  | gemini
deriving DecidableEq, Repr

/-- One transcript entry (`{ author, text }`). -/
structure Turn where
  author : Author
  text : String
deriving DecidableEq, Repr

/-- An `AudioContext` ref: `null`, or held and running, or held but
already in state `closed`. -/
inductive CtxState
  | absent
  | running
  | closed
deriving DecidableEq, Repr

/-- The mutable state of one `LiveView` instance. -/
structure LiveState where
  connectionState : ConnState
  errorMessage : Option String
  history : List Turn
  currentInput : String
  currentOutput : String
  sessionRef : Bool
  mediaStream : Option (List Nat)
  scriptProcessor : Bool
  mediaStreamSource : Bool
  frameTimer : Bool
  inputCtx : CtxState
  outputCtx : CtxState
  nextStartTime : ℚ
  sources : Nat
deriving DecidableEq

/-- Externally visible actions performed by the session code. -/
inductive Effect
  | timerClear
  | procDisconnect
  | trackStop (id : Nat)
  | closeInputCtx
  | closeOutputCtx
  | connClose
  | connectStart
  | schedule (start dur : ℚ)
deriving DecidableEq

/-- The initial component state (before any `start()`). -/
def initState : LiveState :=
  { connectionState := .disconnected
    errorMessage := none
    history := []
    currentInput := ""
    currentOutput := ""
    sessionRef := false
    mediaStream := none
    scriptProcessor := false
    mediaStreamSource := false
    frameTimer := false
    inputCtx := .absent
    outputCtx := .absent
    nextStartTime := 0
    sources := 0 }

/-- `cleanupAudio` (lines 1895-1918 of the frame-timer variant;
lines 881-900 of src/index.tsx are the same with no timer block):
clear the frame timer if set, disconnect the script processor and
media-stream source if both held, stop every track of the held media
stream, then close the input and output contexts when held and not
already closed.  Returns the new state and the ordered effect trace. -/
def cleanupAudio (s : LiveState) : LiveState × List Effect :=
  let p1 : LiveState × List Effect :=
    if s.frameTimer then ({ s with frameTimer := false }, [Effect.timerClear]) else (s, [])
  let p2 : LiveState × List Effect :=
    if p1.1.scriptProcessor && p1.1.mediaStreamSource then
      ({ p1.1 with scriptProcessor := false, mediaStreamSource := false }, [Effect.procDisconnect])
    else (p1.1, [])
  let p3 : LiveState × List Effect :=
    match p2.1.mediaStream with
    | some ts => ({ p2.1 with mediaStream := none }, ts.map Effect.trackStop)
    | none => (p2.1, [])
  let p4 : LiveState × List Effect :=
    if p3.1.inputCtx = .running then
      ({ p3.1 with inputCtx := .absent }, [Effect.closeInputCtx])
    else (p3.1, [])
  let p5 : LiveState × List Effect :=
    if p4.1.outputCtx = .running then
      ({ p4.1 with outputCtx := .absent }, [Effect.closeOutputCtx])
    else (p4.1, [])
  (p5.1, p1.2 ++ p2.2 ++ p3.2 ++ p4.2 ++ p5.2)

/-- `stopLiveSession` (lines 902-912): close the connection if the
session ref is held, run `cleanupAudio`, set the connection state to
`disconnected` and clear both partial-transcript buffers. -/
def stopLiveSession (s : LiveState) : LiveState × List Effect :=
  let p1 : LiveState × List Effect :=
    if s.sessionRef then ({ s with sessionRef := false }, [Effect.connClose]) else (s, [])
  let p2 := cleanupAudio p1.1
  ({ p2.1 with connectionState := .disconnected, currentInput := "", currentOutput := "" },
    p1.2 ++ p2.2)

/-- The `onerror` callback (lines 1000-1005): surface a fixed error
message, move to the `error` state and run `cleanupAudio`.  It does
not close or null the session ref and opens no new connection. -/
def onConnError (s : LiveState) : LiveState × List Effect :=
  cleanupAudio
    { s with
      errorMessage := some ("An error occurred with the live session. Please try again.")
      connectionState := .error }

/-- One inbound server message (the fields of `LiveServerMessage`
read by `onmessage`). -/
structure ServerMsg where
  inputTranscription : Option String
  outputTranscription : Option String
  turnComplete : Bool
  audioData : Option (List Nat)

/-- The `onmessage` callback (lines 954-998), at output-clock time
`now`.  The functional setter updates (`setX(prev => ...)`) are
immediate record updates on the live state, but the callback's own
reads of `currentInput`/`currentOutput` are the `const` bindings of
the render in which `startLiveSession` ran, frozen into the closure
registered once with the connection: `snapIn`/`snapOut` carry those
constants (`""` for a session started fresh), so the `turnComplete`
flush appends the frozen snapshots plus this message's own deltas,
not the accumulated live buffers.  A malformed audio payload makes
`decode` throw after `nextStartTime` has already been raised to the
clock, aborting the rest of the handler; an odd-byte payload makes
the `Int16Array` constructor throw likewise. -/
def onMessage (now : ℚ) (snapIn snapOut : String) (m : ServerMsg) (s : LiveState) :
    LiveState × List Effect :=
  let tempInput := match m.inputTranscription with | some t => t | none => ""
  let s1 := match m.inputTranscription with
    | some t => { s with currentInput := s.currentInput ++ t }
    | none => s
  let tempOutput := match m.outputTranscription with | some t => t | none => ""
  let s2 := match m.outputTranscription with
    | some t => { s1 with currentOutput := s1.currentOutput ++ t }
    | none => s1
  let s3 := if m.turnComplete then
      { s2 with
        history := s2.history ++
          [{ author := .you, text := snapIn ++ tempInput },
           { author := .gemini, text := snapOut ++ tempOutput }]
        currentInput := ""
        currentOutput := "" }
    else s2
  match m.audioData with
  | none => (s3, [])
  | some payload =>
    let next := max s3.nextStartTime now
    match decodeModel payload with
    | none => ({ s3 with nextStartTime := next }, [])
    | some bytes =>
      if bytes.length % 2 = 1 then ({ s3 with nextStartTime := next }, [])
      else
        let dur : ℚ := ((int16Pairs bytes).length : ℚ) / 24000
        ({ s3 with nextStartTime := next + dur, sources := s3.sources + 1 },
          [Effect.schedule next dur])

/-- Process a list of (clock time, message) events in arrival order.
The closure snapshots `snapIn`/`snapOut` are fixed for the life of
the registered callback, so they are constant across the fold. -/
def processMsgs (snapIn snapOut : String) (s : LiveState) :
    List (ℚ × ServerMsg) → LiveState
  | [] => s
  | e :: rest => processMsgs snapIn snapOut (onMessage e.1 snapIn snapOut e.2 s).1 rest

/-- Two-by-two user-then-assistant alternation of the transcript log. -/
def altPairs : List Turn → Bool
  | [] => true
  | { author := .you, text := _ } :: { author := .gemini, text := _ } :: rest => altPairs rest
  | _ => false

/-- Rank of an effect in the teardown order of `cleanupAudio`:
frame timer, processor disconnect, track stops, input context close,
output context close.  Effects never emitted by `cleanupAudio`
(connection open/close, scheduling) rank last. -/
def effRank : Effect → Nat
  | .timerClear => 0
  | .procDisconnect => 1
  | .trackStop _ => 2
  | .closeInputCtx => 3
  | .closeOutputCtx => 4
  | _ => 5

/-- A message carrying only a partial input transcript. -/
def partialInputMsg (t : String) : ServerMsg :=
  { inputTranscription := some t
    outputTranscription := none
    turnComplete := false
    audioData := none }

/-- A bare turn-complete message. -/
def turnCompleteMsg : ServerMsg :=
  { inputTranscription := none
    outputTranscription := none
    turnComplete := true
    audioData := none }

/-- A message carrying only an inline audio payload. -/
def audioMsg (payload : List Nat) : ServerMsg :=
  { inputTranscription := none
    outputTranscription := none
    turnComplete := false
    audioData := some payload }

/-- A concrete state as reached right after a successful `start()`
and its `onopen`: connected, resources held, fresh transcript. -/
def connectedState : LiveState :=
  { connectionState := .connected
    errorMessage := none
    history := []
    currentInput := ""
    currentOutput := ""
    sessionRef := true
    mediaStream := some [0, 1]
    scriptProcessor := true
    mediaStreamSource := true
    frameTimer := true
    inputCtx := .running
    outputCtx := .running
    nextStartTime := 0
    sources := 0 }

/-! ## Helper lemmas -/

/-! ### Transport coding lemmas -/

theorem b64_char_props : ∀ s, s < 64 → isB64 (b64Char s) = true ∧ b64Val (b64Char s) = s := by
  decide

theorem b64Char_ne_61 (s : Nat) : b64Char s ≠ 61 := by
  unfold b64Char; split_ifs <;> omega

theorem isWsChar_b64Char (s : Nat) : isWsChar (b64Char s) = false := by
  unfold isWsChar b64Char; split_ifs <;> simp <;> omega

theorem atobRun_btoaChunks (l : List Nat) (h : ∀ x ∈ l, x < 256) :
    atobRun (btoaChunks l) = some l := by
  induction l using btoaChunks.induct with
  | case1 => rfl
  | case2 a =>
      have ha : a < 256 := h a (by simp)
      have h0 := b64_char_props (a / 4) (by omega)
      have h1 := b64_char_props (a % 4 * 16) (by omega)
      simp [btoaChunks, atobRun, h0.1, h1.1, h0.2, h1.2]
      omega
  | case3 a b =>
      have ha : a < 256 := h a (by simp)
      have hb : b < 256 := h b (by simp)
      have h0 := b64_char_props (a / 4) (by omega)
      have h1 := b64_char_props (a % 4 * 16 + b / 16) (by omega)
      have h2 := b64_char_props (b % 16 * 4) (by omega)
      simp [btoaChunks, atobRun, h0.1, h1.1, h2.1, h0.2, h1.2, h2.2, b64Char_ne_61]
      omega
  | case4 a b c rest ih =>
      have ha : a < 256 := h a (by simp)
      have hb : b < 256 := h b (by simp)
      have hc : c < 256 := h c (by simp)
      have h0 := b64_char_props (a / 4) (by omega)
      have h1 := b64_char_props (a % 4 * 16 + b / 16) (by omega)
      have h2 := b64_char_props (b % 16 * 4 + c / 64) (by omega)
      have h3 := b64_char_props (c % 64) (by omega)
      have ih2 := ih (fun x hx => h x (by simp [hx]))
      simp [btoaChunks, atobRun, h0.1, h1.1, h2.1, h3.1, h0.2, h1.2, h2.2, h3.2,
        b64Char_ne_61, ih2]
      refine ⟨by omega, by omega, by omega⟩

theorem mem_btoaChunks_not_ws (l : List Nat) :
    ∀ c ∈ btoaChunks l, isWsChar c = false := by
  induction l using btoaChunks.induct with
  | case1 => simp [btoaChunks]
  | case2 a => simp [btoaChunks, isWsChar_b64Char]; decide
  | case3 a b => simp [btoaChunks, isWsChar_b64Char]; decide
  | case4 a b c rest ih =>
      intro x hx
      simp only [btoaChunks, List.mem_cons] at hx
      rcases hx with rfl | rfl | rfl | rfl | hx
      · exact isWsChar_b64Char _
      · exact isWsChar_b64Char _
      · exact isWsChar_b64Char _
      · exact isWsChar_b64Char _
      · exact ih x hx

theorem decode_encode_eq (l : List Nat) (h : ∀ x ∈ l, x < 256) :
    decodeModel (encodeModel l) = some l := by
  unfold decodeModel encodeModel
  rw [List.filter_eq_self.mpr (fun c hc => by simp [mem_btoaChunks_not_ws l c hc])]
  exact atobRun_btoaChunks l h

theorem atobRun_valid (l : List Nat) :
    ∀ bs, atobRun l = some bs → ∀ c ∈ l, (isB64 c || c == 61) = true := by
  induction l using atobRun.induct <;> intro bs hbs c hc <;>
    simp_all [atobRun] <;>
    try (rcases hc with rfl | rfl | rfl | rfl | hc <;> simp_all)
  all_goals (rename_i ih; rcases hc with rfl | rfl | rfl | rfl | hc <;>
    first
      | simp_all
      | (obtain ⟨a, ha, -⟩ := hbs; exact ih a ha c hc))

theorem decodeModel_malformed (input : List Nat) (c : Nat) (hmem : c ∈ input)
    (hb : isB64 c = false) (hne : c ≠ 61) (hws : isWsChar c = false) :
    decodeModel input = none := by
  unfold decodeModel
  cases h : atobRun (input.filter fun x => !isWsChar x) with
  | none => rfl
  | some bs =>
      have hv := atobRun_valid _ bs h c (List.mem_filter.mpr ⟨hmem, by simp [hws]⟩)
      simp [hb, hne] at hv

/-! ### PCM codec lemmas -/

theorem truncRat_le_abs (q : ℚ) : |((truncRat q : ℤ) : ℚ) - q| ≤ 1 := by
  unfold truncRat
  split_ifs with h
  · have h1 := Int.floor_le q
    have h2 := Int.lt_floor_add_one q
    rw [abs_le]
    constructor <;> linarith
  · have h1 := Int.le_ceil q
    have h2 := Int.ceil_lt_add_one q
    rw [abs_le]
    constructor <;> linarith

theorem truncRat_range (x : ℚ) (h1 : -1 ≤ x) (h2 : x < 1) :
    -32768 ≤ truncRat (x * 32768) ∧ truncRat (x * 32768) ≤ 32767 := by
  unfold truncRat
  split_ifs with h
  · have hub : x * 32768 < 32768 := by nlinarith
    have hf1 : (0:ℤ) ≤ ⌊x * 32768⌋ := Int.floor_nonneg.mpr h
    have hf2 : ⌊x * 32768⌋ < 32768 := by
      rw [Int.floor_lt]
      push_cast
      linarith
    omega
  · push_neg at h
    have hlb : (-32768 : ℚ) ≤ x * 32768 := by nlinarith
    have hc1 : (-32768 : ℤ) ≤ ⌈x * 32768⌉ := by
      have hcl := Int.le_ceil (x * 32768)
      have hcast : (-32768 : ℚ) ≤ (⌈x * 32768⌉ : ℚ) := by linarith
      exact_mod_cast hcast
    have hc2 : ⌈x * 32768⌉ ≤ 0 := Int.ceil_le.mpr (by push_cast; nlinarith)
    omega

theorem toInt16_wrap (v : ℤ) (h1 : -32768 ≤ v) (h2 : v ≤ 32767) :
    toInt16 ((v % 65536).toNat) = v := by
  unfold toInt16
  split_ifs with h <;> omega

theorem toInt16_split (u : Nat) : toInt16 (u % 256 + 256 * (u / 256)) = toInt16 u := by
  have h : u % 256 + 256 * (u / 256) = u := by omega
  rw [h]

theorem int16Pairs_createBlob (xs : List ℚ) :
    int16Pairs (createBlobBytes xs) = xs.map (fun x => toInt16 (sampleToU16 x)) := by
  induction xs with
  | nil => rfl
  | cons x rest ih =>
      simp [createBlobBytes, int16Pairs, ih, toInt16_split]

theorem rangeMapGetD (l : List ℤ) (f : ℤ → ℚ) :
    (List.range l.length).map (fun i => f (l.getD i 0)) = l.map f := by
  induction l with
  | nil => rfl
  | cons a rest ih =>
      rw [List.length_cons, List.range_succ_eq_map, List.map_cons, List.map_map]
      simp only [Function.comp_def, Nat.succ_eq_add_one, List.getD_cons_succ,
        List.getD_cons_zero]
      rw [ih, List.map_cons]

theorem decodeAudioDataCh_one (data : List Nat) :
    decodeAudioDataCh data 1 0 = (int16Pairs data).map (fun v => ((v : ℤ) : ℚ) / 32768) := by
  unfold decodeAudioDataCh
  simp only [Nat.div_one, Nat.mul_one, Nat.add_zero, mul_one, add_zero]
  exact rangeMapGetD (int16Pairs data) (fun v => ((v : ℤ) : ℚ) / 32768)

theorem sample_roundtrip (x : ℚ) (h1 : -1 ≤ x) (h2 : x < 1) :
    |((toInt16 (sampleToU16 x) : ℤ) : ℚ) / 32768 - x| ≤ 1 / 32768 := by
  obtain ⟨hl, hu⟩ := truncRat_range x h1 h2
  rw [show sampleToU16 x = ((truncRat (x * 32768)) % 65536).toNat from rfl,
    toInt16_wrap _ hl hu]
  have habs := truncRat_le_abs (x * 32768)
  have heq : ((truncRat (x * 32768) : ℤ) : ℚ) / 32768 - x
      = (((truncRat (x * 32768) : ℤ) : ℚ) - x * 32768) / 32768 := by ring
  rw [heq, abs_div]
  rw [show |(32768 : ℚ)| = 32768 from abs_of_pos (by norm_num)]
  rw [div_le_div_iff₀ (by norm_num) (by norm_num)]
  linarith

theorem pcmRoundTrip_eq (xs : List ℚ) :
    pcmRoundTrip xs = xs.map (fun x => ((toInt16 (sampleToU16 x) : ℤ) : ℚ) / 32768) := by
  rw [pcmRoundTrip, decodeAudioDataCh_one, int16Pairs_createBlob, List.map_map]
  simp [Function.comp_def]

theorem zip_map_self (f : ℚ → ℚ) (xs : List ℚ) :
    (xs.map f).zip xs = xs.map (fun x => (f x, x)) := by
  induction xs <;> simp_all

theorem pcm_roundtrip_approx (xs : List ℚ) (h : ∀ x ∈ xs, -1 ≤ x ∧ x < 1) :
    approxEq (pcmRoundTrip xs) xs := by
  rw [pcmRoundTrip_eq]
  constructor
  · simp
  · rw [zip_map_self]
    intro p hp
    obtain ⟨x, hx, rfl⟩ := List.mem_map.mp hp
    exact sample_roundtrip x (h x hx).1 (h x hx).2

theorem pcmRoundTrip_one : pcmRoundTrip [1] = [-1] := by
  rw [pcmRoundTrip_eq]
  norm_num [sampleToU16, truncRat, toInt16]
  norm_num [show Int.toNat 32768 = 32768 from rfl]

theorem createBlob_inrange (x : ℚ) (h1 : -1 ≤ x) (h2 : x < 1) :
    int16Pairs (createBlobBytes [x]) = [truncRat (x * 32768)] := by
  obtain ⟨hl, hu⟩ := truncRat_range x h1 h2
  rw [int16Pairs_createBlob]
  simp only [List.map_cons, List.map_nil]
  rw [show sampleToU16 x = ((truncRat (x * 32768)) % 65536).toNat from rfl,
    toInt16_wrap _ hl hu]

theorem createBlob_at_one : int16Pairs (createBlobBytes [1]) = [-32768] := by
  rw [int16Pairs_createBlob]
  norm_num [sampleToU16, truncRat, toInt16]
  decide

theorem createBlob_at_two : int16Pairs (createBlobBytes [2]) = [0] := by
  rw [int16Pairs_createBlob]
  norm_num [sampleToU16, truncRat, toInt16]

/-! ### Playback scheduler lemmas -/

theorem schedStarts_head_ge (evs : List (ℚ × ℚ)) (next a : ℚ) (rest : List ℚ)
    (h : schedStarts next evs = a :: rest) : next ≤ a := by
  cases evs with
  | nil => simp [schedStarts] at h
  | cons e r =>
      simp only [schedStarts, List.cons.injEq] at h
      rw [← h.1]
      exact le_max_left _ _

theorem schedStarts_chain (evs : List (ℚ × ℚ)) :
    ∀ next : ℚ, (∀ e ∈ evs, 0 ≤ e.2) →
    List.Chain' (fun a b => a ≤ b) (schedStarts next evs) := by
  induction evs with
  | nil => intro next _; simp [schedStarts]
  | cons e r ih =>
      intro next hd
      rw [schedStarts]
      rcases hr : schedStarts (max next e.1 + e.2) r with - | ⟨b, rest⟩
      · simp
      · rw [List.chain'_cons]
        constructor
        · have hb := schedStarts_head_ge r _ b rest hr
          have hdur : 0 ≤ e.2 := hd e (by simp)
          linarith
        · have hcr := ih (max next e.1 + e.2) (fun x hx => hd x (by simp [hx]))
          rw [hr] at hcr
          exact hcr

theorem schedStarts_sepOk (evs : List (ℚ × ℚ)) :
    ∀ next : ℚ, sepOk (schedStarts next evs) (evs.map Prod.snd) = true := by
  induction evs with
  | nil => intro next; rfl
  | cons e r ih =>
      intro next
      rw [schedStarts]
      cases r with
      | nil => rfl
      | cons e2 r2 =>
          have htail := ih (max next e.1 + e.2)
          rw [schedStarts] at htail ⊢
          simp only [List.map_cons, sepOk, Bool.and_eq_true, decide_eq_true_eq] at htail ⊢
          exact ⟨le_max_left _ _, htail⟩

theorem schedStarts_scenario (c2 c3 : ℚ) (h2 : c2 ≤ 1) (h3 : c3 ≤ 3/2) :
    schedStarts 0 [(0, 1), (c2, 1/2), (c3, 1/5)] = [0, 1, 3/2] := by
  simp only [schedStarts]
  norm_num [max_self, max_eq_left h2, max_eq_left h3]

/-! ### Teardown lemmas -/

theorem pairwise_trackStop (ts : List Nat) :
    List.Pairwise (fun a b => effRank a ≤ effRank b) (ts.map Effect.trackStop) := by
  induction ts with
  | nil => simp
  | cons a r ih =>
      rw [List.map_cons]
      refine List.Pairwise.cons ?_ ih
      intro b hb
      obtain ⟨t, -, rfl⟩ := List.mem_map.mp hb
      simp [effRank]

theorem cleanupAudio_eq (s : LiveState) :
    cleanupAudio s =
    ({ s with
        frameTimer := false
        scriptProcessor :=
          if s.scriptProcessor && s.mediaStreamSource then false else s.scriptProcessor
        mediaStreamSource :=
          if s.scriptProcessor && s.mediaStreamSource then false else s.mediaStreamSource
        mediaStream := none
        inputCtx := if s.inputCtx = .running then .absent else s.inputCtx
        outputCtx := if s.outputCtx = .running then .absent else s.outputCtx },
      (if s.frameTimer then [Effect.timerClear] else [])
      ++ (if s.scriptProcessor && s.mediaStreamSource then [Effect.procDisconnect] else [])
      ++ s.mediaStream.elim [] (List.map Effect.trackStop)
      ++ (if s.inputCtx = .running then [Effect.closeInputCtx] else [])
      ++ (if s.outputCtx = .running then [Effect.closeOutputCtx] else [])) := by
  obtain ⟨cs, em, hist, ci, co, sr, ms, sp, mss, ft, ic, oc, nst, src⟩ := s
  cases ft <;> cases sp <;> cases mss <;> rcases ms with - | ts <;> cases ic <;> cases oc <;> rfl

theorem cleanupAudio_untouched (s : LiveState) :
    (cleanupAudio s).1.connectionState = s.connectionState
    ∧ (cleanupAudio s).1.errorMessage = s.errorMessage
    ∧ (cleanupAudio s).1.history = s.history
    ∧ (cleanupAudio s).1.currentInput = s.currentInput
    ∧ (cleanupAudio s).1.currentOutput = s.currentOutput
    ∧ (cleanupAudio s).1.sessionRef = s.sessionRef
    ∧ (cleanupAudio s).1.nextStartTime = s.nextStartTime
    ∧ (cleanupAudio s).1.sources = s.sources := by
  simp [cleanupAudio_eq]

theorem seg_pairwise (c : Prop) [Decidable c] (e : Effect) :
    List.Pairwise (fun a b => effRank a ≤ effRank b) (if c then [e] else []) := by
  split_ifs <;> simp

theorem seg_bound_le (c : Prop) [Decidable c] (e : Effect) (k : Nat) (h : effRank e ≤ k) :
    ∀ x ∈ (if c then [e] else []), effRank x ≤ k := by
  split_ifs <;> simp_all

theorem seg_bound_ge (c : Prop) [Decidable c] (e : Effect) (k : Nat) (h : k ≤ effRank e) :
    ∀ x ∈ (if c then [e] else []), k ≤ effRank x := by
  split_ifs <;> simp_all

theorem pairwise_rank_append (l1 l2 : List Effect) (k : Nat)
    (h1 : List.Pairwise (fun a b => effRank a ≤ effRank b) l1)
    (h2 : List.Pairwise (fun a b => effRank a ≤ effRank b) l2)
    (b1 : ∀ e ∈ l1, effRank e ≤ k) (b2 : ∀ e ∈ l2, k ≤ effRank e) :
    List.Pairwise (fun a b => effRank a ≤ effRank b) (l1 ++ l2) :=
  List.pairwise_append.mpr ⟨h1, h2, fun a ha b hb => le_trans (b1 a ha) (b2 b hb)⟩

theorem trackSeg_pairwise (o : Option (List Nat)) :
    List.Pairwise (fun a b => effRank a ≤ effRank b)
      (o.elim [] (List.map Effect.trackStop)) := by
  rcases o with - | ts
  · simp
  · exact pairwise_trackStop ts

theorem trackSeg_rank (o : Option (List Nat)) :
    ∀ e ∈ o.elim ([] : List Effect) (List.map Effect.trackStop), effRank e = 2 := by
  rcases o with - | ts
  · simp
  · intro e he
    obtain ⟨t, -, rfl⟩ := List.mem_map.mp he
    rfl

theorem cleanupAudio_trace_rank (s : LiveState) :
    ∀ e ∈ (cleanupAudio s).2, effRank e ≤ 4 := by
  rw [cleanupAudio_eq]
  intro e he
  simp only [List.mem_append] at he
  rcases he with ((((h | h) | h) | h) | h)
  · exact seg_bound_le _ _ 4 (by simp [effRank]) e h
  · exact seg_bound_le _ _ 4 (by simp [effRank]) e h
  · have h2 := trackSeg_rank s.mediaStream e h
    omega
  · exact seg_bound_le _ _ 4 (by simp [effRank]) e h
  · exact seg_bound_le _ _ 4 (by simp [effRank]) e h

theorem cleanupAudio_ordered (s : LiveState) :
    List.Pairwise (fun a b => effRank a ≤ effRank b) (cleanupAudio s).2 := by
  rw [cleanupAudio_eq]
  refine pairwise_rank_append _ _ 4 ?_ ?_ ?_ ?_
  · refine pairwise_rank_append _ _ 3 ?_ ?_ ?_ ?_
    · refine pairwise_rank_append _ _ 2 ?_ ?_ ?_ ?_
      · refine pairwise_rank_append _ _ 1 ?_ ?_ ?_ ?_
        · exact seg_pairwise _ _
        · exact seg_pairwise _ _
        · exact seg_bound_le _ _ _ (by simp [effRank])
        · exact seg_bound_ge _ _ _ (by simp [effRank])
      · exact trackSeg_pairwise _
      · intro e he
        rcases List.mem_append.mp he with h | h
        · exact le_trans (seg_bound_le _ Effect.timerClear 1 (by simp [effRank]) e h) (by omega)
        · exact le_trans (seg_bound_le _ Effect.procDisconnect 1 (by simp [effRank]) e h) (by omega)
      · intro e he
        have h2 := trackSeg_rank _ e he
        omega
    · exact seg_pairwise _ _
    · intro e he
      rcases List.mem_append.mp he with h | h
      · rcases List.mem_append.mp h with h2 | h2
        · exact le_trans (seg_bound_le _ Effect.timerClear 1 (by simp [effRank]) e h2) (by omega)
        · exact le_trans (seg_bound_le _ Effect.procDisconnect 1 (by simp [effRank]) e h2) (by omega)
      · have h2 := trackSeg_rank _ e h
        omega
    · exact seg_bound_ge _ _ _ (by simp [effRank])
  · exact seg_pairwise _ _
  · intro e he
    rcases List.mem_append.mp he with h | h
    · rcases List.mem_append.mp h with h2 | h2
      · rcases List.mem_append.mp h2 with h3 | h3
        · exact le_trans (seg_bound_le _ Effect.timerClear 1 (by simp [effRank]) e h3) (by omega)
        · exact le_trans (seg_bound_le _ Effect.procDisconnect 1 (by simp [effRank]) e h3) (by omega)
      · have := trackSeg_rank _ e h2
        omega
    · exact seg_bound_le _ Effect.closeInputCtx 4 (by simp [effRank]) e h
  · exact seg_bound_ge _ _ _ (by simp [effRank])

theorem cleanupAudio_idem (s : LiveState) :
    cleanupAudio (cleanupAudio s).1 = ((cleanupAudio s).1, []) := by
  rw [cleanupAudio_eq s, cleanupAudio_eq]
  rcases h1 : s.inputCtx <;> rcases h2 : s.outputCtx <;>
    rcases h3 : s.scriptProcessor <;> rcases h4 : s.mediaStreamSource <;>
    simp_all

theorem cleanupAudio_tracks (s : LiveState) (ts : List Nat) (h : s.mediaStream = some ts) :
    ∀ t ∈ ts, Effect.trackStop t ∈ (cleanupAudio s).2 := by
  intro t ht
  rw [cleanupAudio_eq]
  have hmem : Effect.trackStop t ∈ s.mediaStream.elim [] (List.map Effect.trackStop) := by
    rw [h]
    exact List.mem_map_of_mem _ ht
  exact List.mem_append_left _ (List.mem_append_left _ (List.mem_append_right _ hmem))

theorem cleanupAudio_mem_timer (s : LiveState) (h : s.frameTimer = true) :
    Effect.timerClear ∈ (cleanupAudio s).2 := by
  rw [cleanupAudio_eq]
  simp [h]

theorem cleanupAudio_mem_inCtx (s : LiveState) (h : s.inputCtx = .running) :
    Effect.closeInputCtx ∈ (cleanupAudio s).2 := by
  rw [cleanupAudio_eq]
  simp [h]

theorem cleanupAudio_mem_outCtx (s : LiveState) (h : s.outputCtx = .running) :
    Effect.closeOutputCtx ∈ (cleanupAudio s).2 := by
  rw [cleanupAudio_eq]
  simp [h]

/-! ### Session stop / error lemmas -/

theorem cleanupAudio_update4 (t : LiveState) (c : ConnState) (a b : String) (sr : Bool) :
    cleanupAudio
      { t with connectionState := c, currentInput := a, currentOutput := b, sessionRef := sr }
      = ({ (cleanupAudio t).1 with
            connectionState := c, currentInput := a, currentOutput := b, sessionRef := sr },
         (cleanupAudio t).2) := by
  rw [cleanupAudio_eq, cleanupAudio_eq]

theorem stopLiveSession_eq (s : LiveState) :
    stopLiveSession s =
      ({ (cleanupAudio s).1 with
          connectionState := .disconnected, currentInput := "", currentOutput := "",
          sessionRef := false },
       (if s.sessionRef then [Effect.connClose] else []) ++ (cleanupAudio s).2) := by
  have hu := (cleanupAudio_untouched s).2.2.2.2.2.1
  cases hsr : s.sessionRef
  · simp [stopLiveSession, hsr, LiveState.mk.injEq, hu]
  · simp [stopLiveSession, hsr, cleanupAudio_update4, LiveState.mk.injEq]

theorem stop_initState : stopLiveSession initState = (initState, []) := rfl

theorem stop_idem (s : LiveState) :
    (stopLiveSession (stopLiveSession s).1).1 = (stopLiveSession s).1 := by
  rw [stopLiveSession_eq, stopLiveSession_eq]
  simp only [cleanupAudio_update4]
  have hi := congrArg Prod.fst (cleanupAudio_idem s)
  simp only [hi]

/-! ### onmessage lemmas -/

theorem onMessage_tc (now : ℚ) (snapIn snapOut : String) (m : ServerMsg) (s : LiveState)
    (h : m.turnComplete = true) :
    (onMessage now snapIn snapOut m s).1.history = s.history ++
      [{ author := .you, text := snapIn ++ m.inputTranscription.getD "" },
       { author := .gemini, text := snapOut ++ m.outputTranscription.getD "" }]
    ∧ (onMessage now snapIn snapOut m s).1.currentInput = ""
    ∧ (onMessage now snapIn snapOut m s).1.currentOutput = "" := by
  rcases hit : m.inputTranscription with - | tin <;>
  rcases hot : m.outputTranscription with - | tout <;>
  rcases had : m.audioData with - | payload <;>
    simp [onMessage, hit, hot, had, h] <;>
    (rcases hdec : decodeModel payload with - | bytes <;> simp [hdec] <;> split_ifs <;> simp)

theorem onMessage_ntc (now : ℚ) (snapIn snapOut : String) (m : ServerMsg) (s : LiveState)
    (h : m.turnComplete = false) :
    (onMessage now snapIn snapOut m s).1.history = s.history := by
  rcases hit : m.inputTranscription with - | tin <;>
  rcases hot : m.outputTranscription with - | tout <;>
  rcases had : m.audioData with - | payload <;>
    simp [onMessage, hit, hot, had, h] <;>
    (rcases hdec : decodeModel payload with - | bytes <;> simp [hdec] <;> split_ifs <;> simp)

theorem onMessage_audio_malformed (now : ℚ) (snapIn snapOut : String) (payload : List Nat)
    (s : LiveState) (h : decodeModel payload = none) :
    onMessage now snapIn snapOut (audioMsg payload) s
      = ({ s with nextStartTime := max s.nextStartTime now }, []) := by
  simp [onMessage, audioMsg, h]

theorem onMessage_malformed_general (now : ℚ) (snapIn snapOut : String) (m : ServerMsg)
    (s : LiveState) (payload : List Nat) (ha : m.audioData = some payload)
    (h : decodeModel payload = none) :
    (onMessage now snapIn snapOut m s).1.connectionState = s.connectionState
    ∧ (onMessage now snapIn snapOut m s).1.sources = s.sources
    ∧ (onMessage now snapIn snapOut m s).1.sessionRef = s.sessionRef
    ∧ (onMessage now snapIn snapOut m s).2 = [] := by
  rcases hit : m.inputTranscription with - | tin <;>
  rcases hot : m.outputTranscription with - | tout <;>
  cases htc : m.turnComplete <;>
    simp [onMessage, hit, hot, ha, htc, h]

theorem altPairs_append (l : List Turn) (u g : String) (h : altPairs l = true) :
    altPairs (l ++ [{ author := .you, text := u }, { author := .gemini, text := g }]) = true := by
  induction l using altPairs.induct <;> simp_all [altPairs]

theorem altPairs_even (l : List Turn) (h : altPairs l = true) : l.length % 2 = 0 := by
  induction l using altPairs.induct <;> simp_all [altPairs] <;> omega

theorem processMsgs_alt (snapIn snapOut : String) (evs : List (ℚ × ServerMsg)) :
    ∀ s : LiveState, altPairs s.history = true →
    altPairs (processMsgs snapIn snapOut s evs).history = true := by
  induction evs with
  | nil => intro s h; exact h
  | cons e rest ih =>
      intro s h
      rw [processMsgs]
      apply ih
      cases htc : e.2.turnComplete
      · rw [onMessage_ntc _ _ _ _ _ htc]; exact h
      · rw [(onMessage_tc _ _ _ _ _ htc).1]; exact altPairs_append _ _ _ h

/-! ## Claim theorems -/

/-- C1: Playback Scheduler no-overlap law: every buffer starts at
`max(nextStartTime, clock.currentTime)` and `nextStartTime` then moves
past it, so (a) each start time is at least the previous start plus
the previous duration, (b) for nonnegative durations the start times
are non-decreasing, and (c) three payloads of durations 1, 1/2 and
1/5 seconds arriving while the clock is within the already scheduled
audio (in particular back-to-back at clock time 0) start at 0, 1 and
3/2, independent of arrival timing. -/
theorem C1_scheduler_no_overlap :
    (∀ (next : ℚ) (evs : List (ℚ × ℚ)),
      sepOk (schedStarts next evs) (evs.map Prod.snd) = true)
    ∧ (∀ (next : ℚ) (evs : List (ℚ × ℚ)), (∀ e ∈ evs, 0 ≤ e.2) →
      List.Chain' (fun a b => a ≤ b) (schedStarts next evs))
    ∧ (∀ c2 c3 : ℚ, c2 ≤ 1 → c3 ≤ 3/2 →
      schedStarts 0 [(0, 1), (c2, 1/2), (c3, 1/5)] = [0, 1, 3/2]) :=
  ⟨fun next evs => schedStarts_sepOk evs next,
   fun next evs h => schedStarts_chain evs next h,
   fun c2 c3 h2 h3 => schedStarts_scenario c2 c3 h2 h3⟩

/-- C1 witness: the concrete back-to-back scenario. -/
theorem C1_scheduler_no_overlap_witness :
    List.Chain' (fun a b => a ≤ b) (schedStarts 0 [(0, 1), (0, 1/2), (0, 1/5)])
    ∧ schedStarts 0 [(0, 1), (0, 1/2), (0, 1/5)] = [0, 1, 3/2] :=
  ⟨C1_scheduler_no_overlap.2.1 0 [(0, 1), (0, 1/2), (0, 1/5)] (by norm_num),
   C1_scheduler_no_overlap.2.2 0 0 (by norm_num) (by norm_num)⟩

/-- C2 counterexample: the sample 1 lies in the claimed domain
[-1, 1], but the unclamped encoder wraps `32768` to `-32768`, so the
round trip returns -1 and the error is 2, far above 1/32768. -/
theorem C2_counterexample :
    (∀ x ∈ [(1 : ℚ)], -1 ≤ x ∧ x ≤ 1) ∧ ¬ approxEq (pcmRoundTrip [1]) [1] := by
  constructor
  · intro x hx
    rw [List.mem_singleton] at hx
    subst hx
    norm_num
  · rw [pcmRoundTrip_one]
    rintro ⟨-, hall⟩
    have h := hall (-1, 1) (by simp)
    norm_num at h

/-- C2 (amended): for samples in the half-open interval [-1, 1) the
PCM-16 round trip through `createBlob` and one-channel
`decodeAudioData` is within 1/32768 per sample; the right endpoint 1
must be excluded because the encoder does not clamp. -/
theorem C2_pcm_roundtrip (xs : List ℚ) (h : ∀ x ∈ xs, -1 ≤ x ∧ x < 1) :
    approxEq (pcmRoundTrip xs) xs :=
  pcm_roundtrip_approx xs h

/-- C2 witness: a concrete in-range round trip. -/
theorem C2_pcm_roundtrip_witness : approxEq (pcmRoundTrip [1/2, -1/2, 0]) [1/2, -1/2, 0] :=
  C2_pcm_roundtrip [1/2, -1/2, 0] (by norm_num)

/-- C3: the transport text (base64) round trip is lossless: for every
byte sequence, `decode (encode b) = b` exactly. -/
theorem C3_transport_roundtrip (b : List Nat) (h : ∀ x ∈ b, x < 256) :
    decodeModel (encodeModel b) = some b :=
  decode_encode_eq b h

/-- C3 witness: a concrete byte sequence (all three padding shapes are
also checked by the proof's case split). -/
theorem C3_transport_roundtrip_witness :
    decodeModel (encodeModel [0, 255, 77, 10]) = some [0, 255, 77, 10] :=
  C3_transport_roundtrip [0, 255, 77, 10] (by decide)

/-- C4 (code bug): evaluating the handler at the claim's scenario.
From a freshly started session the closure snapshots are `""`, so
while the three partial-input events "Hel", "lo ", " there" do
accumulate "Hello  there" into the live `currentInput` buffer through
the functional setter updates, the turn-complete flush reads the
frozen closure constants plus its own (empty) deltas and appends a
user turn with text `""` and an assistant turn with text `""`,
discarding the accumulated text; no appended turn carries the
claimed "Hello there" (nor the accumulated "Hello  there"), and both
buffers are reset to empty. -/
theorem C4_stale_closure_flush :
    (processMsgs "" "" connectedState
      [(0, partialInputMsg ("Hel")), (0, partialInputMsg ("lo ")),
       (0, partialInputMsg (" there"))]).currentInput = "Hello  there"
    ∧ (processMsgs "" "" connectedState
      [(0, partialInputMsg ("Hel")), (0, partialInputMsg ("lo ")),
       (0, partialInputMsg (" there")), (0, turnCompleteMsg)]).history
      = [{ author := .you, text := "" }, { author := .gemini, text := "" }]
    ∧ (∀ t ∈ (processMsgs "" "" connectedState
      [(0, partialInputMsg ("Hel")), (0, partialInputMsg ("lo ")),
       (0, partialInputMsg (" there")), (0, turnCompleteMsg)]).history,
      t.text ≠ "Hello there")
    ∧ (processMsgs "" "" connectedState
      [(0, partialInputMsg ("Hel")), (0, partialInputMsg ("lo ")),
       (0, partialInputMsg (" there")), (0, turnCompleteMsg)]).currentInput = ""
    ∧ (processMsgs "" "" connectedState
      [(0, partialInputMsg ("Hel")), (0, partialInputMsg ("lo ")),
       (0, partialInputMsg (" there")), (0, turnCompleteMsg)]).currentOutput = "" := by
  refine ⟨by decide, by decide, by decide, by decide, by decide⟩

/-- C5: `stop()` is safe and idempotent: on the initial state (before
any `start()`) it changes nothing and emits no effects, and from any
state a second `stop()` leaves the state of the first unchanged. -/
theorem C5_stop_idempotent :
    stopLiveSession initState = (initState, [])
    ∧ ∀ s : LiveState, (stopLiveSession (stopLiveSession s).1).1 = (stopLiveSession s).1 :=
  ⟨stop_initState, stop_idem⟩

/-- C6: a connection error event moves the session to the `error`
state, surfaces a user-visible message, stops every track of the held
media stream, does not close or reopen the connection (no automatic
reconnection), and leaves the session ref untouched. -/
theorem C6_connection_error (s : LiveState) (ts : List Nat) (h : s.mediaStream = some ts) :
    (onConnError s).1.connectionState = .error
    ∧ (onConnError s).1.errorMessage
        = some ("An error occurred with the live session. Please try again.")
    ∧ (∀ t ∈ ts, Effect.trackStop t ∈ (onConnError s).2)
    ∧ Effect.connClose ∉ (onConnError s).2
    ∧ Effect.connectStart ∉ (onConnError s).2
    ∧ (onConnError s).1.sessionRef = s.sessionRef := by
  unfold onConnError
  refine ⟨(cleanupAudio_untouched _).1.trans rfl,
    (cleanupAudio_untouched _).2.1.trans rfl,
    cleanupAudio_tracks _ ts h,
    fun hmem => ?_, fun hmem => ?_,
    (cleanupAudio_untouched _).2.2.2.2.2.1.trans rfl⟩
  · have hr := cleanupAudio_trace_rank _ _ hmem
    simp [effRank] at hr
  · have hr := cleanupAudio_trace_rank _ _ hmem
    simp [effRank] at hr

/-- C6 witness: the error event on the concrete connected state. -/
theorem C6_connection_error_witness :
    (onConnError connectedState).1.connectionState = .error
    ∧ (onConnError connectedState).1.errorMessage
        = some ("An error occurred with the live session. Please try again.")
    ∧ (∀ t ∈ [0, 1], Effect.trackStop t ∈ (onConnError connectedState).2)
    ∧ Effect.connClose ∉ (onConnError connectedState).2
    ∧ Effect.connectStart ∉ (onConnError connectedState).2
    ∧ (onConnError connectedState).1.sessionRef = connectedState.sessionRef :=
  C6_connection_error connectedState [0, 1] rfl

/-- C7: `cleanupAudio` tears down in the fixed order frame timer,
processor disconnect, track stops, input context close, output
context close (the emitted trace is sorted by that rank); each step
fires exactly when its resource is held; and tearing down an already
torn-down pipeline changes nothing and emits nothing. -/
theorem C7_teardown_order (s : LiveState) :
    List.Pairwise (fun a b => effRank a ≤ effRank b) (cleanupAudio s).2
    ∧ cleanupAudio (cleanupAudio s).1 = ((cleanupAudio s).1, [])
    ∧ (s.frameTimer = true → Effect.timerClear ∈ (cleanupAudio s).2)
    ∧ ((s.scriptProcessor && s.mediaStreamSource) = true →
        Effect.procDisconnect ∈ (cleanupAudio s).2)
    ∧ (∀ ts, s.mediaStream = some ts → ∀ t ∈ ts, Effect.trackStop t ∈ (cleanupAudio s).2)
    ∧ (s.inputCtx = .running → Effect.closeInputCtx ∈ (cleanupAudio s).2)
    ∧ (s.outputCtx = .running → Effect.closeOutputCtx ∈ (cleanupAudio s).2) := by
  refine ⟨cleanupAudio_ordered s, cleanupAudio_idem s, cleanupAudio_mem_timer s, ?_,
    fun ts h => cleanupAudio_tracks s ts h, cleanupAudio_mem_inCtx s,
    cleanupAudio_mem_outCtx s⟩
  intro hboth
  rw [cleanupAudio_eq]
  simp [hboth]

/-- C7 witness: all resources held at the concrete connected state. -/
theorem C7_teardown_order_witness :
    Effect.timerClear ∈ (cleanupAudio connectedState).2
    ∧ Effect.procDisconnect ∈ (cleanupAudio connectedState).2
    ∧ Effect.trackStop 0 ∈ (cleanupAudio connectedState).2
    ∧ Effect.closeInputCtx ∈ (cleanupAudio connectedState).2
    ∧ Effect.closeOutputCtx ∈ (cleanupAudio connectedState).2 :=
  ⟨(C7_teardown_order connectedState).2.2.1 rfl,
   (C7_teardown_order connectedState).2.2.2.1 rfl,
   (C7_teardown_order connectedState).2.2.2.2.1 [0, 1] rfl 0 (by decide),
   (C7_teardown_order connectedState).2.2.2.2.2.1 rfl,
   (C7_teardown_order connectedState).2.2.2.2.2.2 rfl⟩

/-- C8: a malformed transport-text audio payload makes `decode`
signal an error (`none`) rather than silently dropping bytes (any
character outside the base64 alphabet, padding and whitespace makes
the whole decode fail); the message's audio is dropped (no source
scheduled, no effects emitted) with only the internal
`nextStartTime = max(nextStartTime, now)` bump already performed
before the throw; and the session survives: connection state, source
set and session ref are unchanged and the connection is not closed. -/
theorem C8_codec_error_recovery :
    (∀ (input : List Nat) (c : Nat), c ∈ input → isB64 c = false → c ≠ 61 →
      isWsChar c = false → decodeModel input = none)
    ∧ (∀ (now : ℚ) (snapIn snapOut : String) (payload : List Nat) (s : LiveState),
      decodeModel payload = none →
      onMessage now snapIn snapOut (audioMsg payload) s
        = ({ s with nextStartTime := max s.nextStartTime now }, []))
    ∧ (∀ (now : ℚ) (snapIn snapOut : String) (m : ServerMsg) (s : LiveState)
      (payload : List Nat),
      m.audioData = some payload → decodeModel payload = none →
      (onMessage now snapIn snapOut m s).1.connectionState = s.connectionState
      ∧ (onMessage now snapIn snapOut m s).1.sources = s.sources
      ∧ (onMessage now snapIn snapOut m s).1.sessionRef = s.sessionRef
      ∧ (onMessage now snapIn snapOut m s).2 = []) :=
  ⟨fun input c hmem hb hne hws => decodeModel_malformed input c hmem hb hne hws,
   fun now snapIn snapOut payload s h =>
     onMessage_audio_malformed now snapIn snapOut payload s h,
   fun now snapIn snapOut m s payload ha h =>
     onMessage_malformed_general now snapIn snapOut m s payload ha h⟩

/-- C8 witness: the one-character payload "!" is malformed. -/
theorem C8_codec_error_recovery_witness :
    decodeModel [33] = none
    ∧ onMessage 0 "" "" (audioMsg [33]) connectedState
        = ({ connectedState with
              nextStartTime := max connectedState.nextStartTime 0 }, []) :=
  ⟨C8_codec_error_recovery.1 [33] 33 (by decide) (by decide) (by decide) (by decide),
   C8_codec_error_recovery.2.1 0 "" "" [33] connectedState (by decide)⟩

/-- C9: the encoder multiplies each sample by 32768 and truncates to
a little-endian 16-bit signed integer with no clamping: reading the
two emitted bytes back as a signed 16-bit value gives exactly
`trunc(x * 32768)` for -1 ≤ x < 1, while the boundary 1.0 wraps to
-32768 (saturation would give 32767) and the out-of-range sample 2.0
wraps to 0. -/
theorem C9_no_clamping :
    (∀ x : ℚ, -1 ≤ x → x < 1 → int16Pairs (createBlobBytes [x]) = [truncRat (x * 32768)])
    ∧ int16Pairs (createBlobBytes [1]) = [-32768]
    ∧ int16Pairs (createBlobBytes [2]) = [0] :=
  ⟨fun x h1 h2 => createBlob_inrange x h1 h2, createBlob_at_one, createBlob_at_two⟩

/-- C9 witness: the in-range sample 1/2 encodes to 16384. -/
theorem C9_no_clamping_witness :
    int16Pairs (createBlobBytes [1/2]) = [truncRat ((1/2 : ℚ) * 32768)] :=
  C9_no_clamping.1 (1/2) (by norm_num) (by norm_num)

/-- C10: every turn-complete event appends exactly one user entry
followed by one assistant entry (possibly with empty text), any other
message leaves the log unchanged, and hence from any state whose log
alternates in user-assistant pairs, processing any message sequence
preserves the pairing and keeps the log length even. -/
theorem C10_history_alternates :
    (∀ (now : ℚ) (snapIn snapOut : String) (m : ServerMsg) (s : LiveState),
      m.turnComplete = true →
      ∃ u g, (onMessage now snapIn snapOut m s).1.history
        = s.history ++ [{ author := .you, text := u }, { author := .gemini, text := g }])
    ∧ (∀ (now : ℚ) (snapIn snapOut : String) (m : ServerMsg) (s : LiveState),
      m.turnComplete = false →
      (onMessage now snapIn snapOut m s).1.history = s.history)
    ∧ (∀ (snapIn snapOut : String) (evs : List (ℚ × ServerMsg)) (s : LiveState),
      altPairs s.history = true →
      altPairs (processMsgs snapIn snapOut s evs).history = true
      ∧ (processMsgs snapIn snapOut s evs).history.length % 2 = 0) :=
  ⟨fun now snapIn snapOut m s h => ⟨_, _, (onMessage_tc now snapIn snapOut m s h).1⟩,
   fun now snapIn snapOut m s h => onMessage_ntc now snapIn snapOut m s h,
   fun snapIn snapOut evs s h => ⟨processMsgs_alt snapIn snapOut evs s h,
     altPairs_even _ (processMsgs_alt snapIn snapOut evs s h)⟩⟩

/-- C10 witness: a bare turn-complete on the connected state appends
an empty-text pair and the log stays alternating and even. -/
theorem C10_history_alternates_witness :
    (∃ u g, (onMessage 0 "" "" turnCompleteMsg connectedState).1.history
      = connectedState.history
        ++ [{ author := .you, text := u }, { author := .gemini, text := g }])
    ∧ altPairs (processMsgs "" "" connectedState [(0, turnCompleteMsg)]).history = true :=
  ⟨C10_history_alternates.1 0 "" "" turnCompleteMsg connectedState rfl,
   (C10_history_alternates.2.2 "" "" [(0, turnCompleteMsg)] connectedState rfl).1⟩
